import Mathlib

/-! Verification of the mod_tls connection filter core.

The definitions below are a shallow embedding of the C sources
src/tls_core.c, src/tls_filter.c and src/tls_var.c.  Byte buffers and
bucket brigades become lists of bytes (Nat), the rustls session engine
is treated as an opaque capability whose per-call consumption and
production amounts are explicit oracle parameters, and fallible paths
return Except or Option (Option.none models running out of loop fuel,
i.e. divergence, about which nothing is claimed).  Ghost fields such as
session_fed, arrived and close_notifies record the interaction with the
engine so that ordering and idempotence properties can be stated. -/

namespace ModTls

/-- APR status outcomes used by the filter code.  segfault is not an APR
status: it marks the undefined behaviour of a null-pointer dereference.  A
crashed call never returns, so wherever the marker arises it is passed
through unchanged and never mapped to any clean outcome. -/
inductive Status where
  | success
  | eof
  | eagain
  | econnreset
  | econnaborted
  | enotimpl
  | assertfail
  | segfault
  deriving DecidableEq, Repr

/-- APR read type: blocking or non-blocking reads. -/
inductive BlockMode where
  | blocking
  | nonblocking
  deriving DecidableEq, Repr

/-- The TLS_CONN_ST_* connection states used in the sources. -/
inductive ConnState where
  | ignored
  | pre_handshake
  | handshake
  | traffic
  | notified
  | done
  deriving DecidableEq, Repr

/-! ## Site enablement (src/tls_core.c) -/

/-- One entry of a server_addr_rec list: port, address length, address bytes. -/
structure ServerAddr where
  host_port : Nat
  ipaddr_len : Nat
  ipaddr : List Nat
  deriving DecidableEq, Repr

/-- The address comparison inside we_listen_on, src/tls_core.c lines 29-32.
The memcmp there compares la.host_addr.ipaddr_ptr with la.host_addr.ipaddr_ptr
(the same pointer on both sides), which is what the last conjunct transcribes. -/
def addr_match (la sa : ServerAddr) : Bool :=
  la.host_port == sa.host_port
    && la.ipaddr_len == sa.ipaddr_len
    && la.ipaddr.take la.ipaddr_len == la.ipaddr.take la.ipaddr_len

/-- we_listen_on, src/tls_core.c lines 23-39. -/
def we_listen_on (tls_addresses : List ServerAddr) (addrs : List ServerAddr) : Bool :=
  tls_addresses.any fun la => addrs.any fun sa => addr_match la sa

/-- The TLS_FLAG_* tri-state flag. -/
inductive TlsFlag where
  | unset
  | flagTrue
  | flagFalse
  deriving DecidableEq, Repr

/-- The per-server enablement decision of tls_core_init,
src/tls_core.c lines 79-94. -/
def tls_core_init_enabled (tls_addresses : List ServerAddr) (addrs : List ServerAddr)
    (enabled0 : TlsFlag) (protocol : Option String) : TlsFlag :=
  let e1 :=
    if tls_addresses ≠ [] then
      if we_listen_on tls_addresses addrs then TlsFlag.flagTrue else TlsFlag.flagFalse
    else if enabled0 = TlsFlag.unset ∧ protocol = some "https" then TlsFlag.flagTrue
    else enabled0
  if e1 = TlsFlag.unset then TlsFlag.flagFalse else e1

/-! ## Variable export (src/tls_var.c) -/

/-- The fields of tls_conf_conn_t that the variable exporter touches. -/
structure VarConnCtx where
  state : ConnState
  tls_protocol_name : Option String
  tls_cipher_name : Option String
  sni_hostname : Option String
  client_cert : Bool
  subprocess_env : Option (List (String × String))
  deriving DecidableEq, Repr

/-- apr_table_get on an association list. -/
def table_get (t : List (String × String)) (k : String) : Option String :=
  (t.find? fun p => p.fst == k).map Prod.snd

/-- apr_table_setn: replace the value under an existing key, else append. -/
def table_set (t : List (String × String)) (k v : String) : List (String × String) :=
  if t.any fun p => p.fst == k then
    t.map fun p => if p.fst == k then (k, v) else p
  else t ++ [(k, v)]

/-- var_get_ssl_protocol, src/tls_var.c lines 41-44. -/
def var_get_ssl_protocol (c : VarConnCtx) : Option String :=
  c.tls_protocol_name

/-- var_get_ssl_cipher, src/tls_var.c lines 46-49. -/
def var_get_ssl_cipher (c : VarConnCtx) : Option String :=
  c.tls_cipher_name

/-- var_get_sni_hostname, src/tls_var.c lines 51-54. -/
def var_get_sni_hostname (c : VarConnCtx) : Option String :=
  c.sni_hostname

/-- var_get_client_s_dn_cn, src/tls_var.c lines 56-60. -/
def var_get_client_s_dn_cn (c : VarConnCtx) : Option String :=
  if c.client_cert then some "Not Implemented" else none

/-- Dispatch over the VAR_DEFS table, src/tls_var.c lines 67-72. -/
def var_lookup_fn (name : String) (c : VarConnCtx) : Option String :=
  if name == "SSL_PROTOCOL" then var_get_ssl_protocol c
  else if name == "SSL_CIPHER" then var_get_ssl_cipher c
  else if name == "SSL_TLS_SNI" then var_get_sni_hostname c
  else if name == "SSL_CLIENT_S_DN_CN" then var_get_client_s_dn_cn c
  else none

/-- invoke, src/tls_var.c lines 96-104, for a present connection context. -/
def var_invoke (c : VarConnCtx) (name : String) : Option String :=
  if c.state ≠ ConnState.ignored then
    let val :=
      match c.subprocess_env with
      | some t => table_get t name
      | none => none
    match val with
    | some v => if v ≠ "" then some v else var_lookup_fn name c
    | none => var_lookup_fn name c
  else none

/-- set_var, src/tls_var.c lines 106-116; the four TlsAlwaysVars names are all
present in the lookup hash built by tls_var_init_lookup_hash. -/
def set_var (c : VarConnCtx) (name : String) (t : List (String × String)) :
    List (String × String) :=
  match var_invoke c name with
  | some v => if v ≠ "" then table_set t name v else t
  | none => t

/-- The TlsAlwaysVars name list, src/tls_var.c lines 74-79. -/
def TlsAlwaysVars : List String :=
  ["SSL_TLS_SNI", "SSL_PROTOCOL", "SSL_CIPHER", "SSL_CLIENT_S_DN_CN"]

/-- tls_var_handshake_done, src/tls_var.c lines 147-176.  The guard at line
157 jumps to the cleanup label, but the cleanup label (lines 173-175) is the
store cc.subprocess_env := env: when cc is NULL that store dereferences a
null pointer, which the Except.error value records; when the state is
IGNORED the store is still performed (env is still NULL there). -/
def tls_var_handshake_done (cc : Option VarConnCtx) : Except String VarConnCtx :=
  match cc with
  | none => Except.error "null cc dereferenced at cleanup store"
  | some c =>
    if c.state = ConnState.ignored then
      Except.ok { c with subprocess_env := none }
    else
      let env0 := table_set [] "HTTPS" "on"
      let env := TlsAlwaysVars.foldl (fun t n => set_var c n t) env0
      Except.ok { c with subprocess_env := some env }

/-! ## Outbound filter (src/tls_filter.c, write path) -/

/-- An item in the network-bound brigade fout_tls_bb: either an encrypted
byte chunk produced by the engine or a metadata bucket on its way down. -/
inductive OutItem where
  | tls (bytes : List Nat)
  | meta (isEOC : Bool)
  deriving DecidableEq, Repr

/-- Outbound filter buffering state (the fout_* fields of tls_filter_ctx_t):
fout_buf_plain with its fill and capacity, fout_bytes_in_rustls, and the
network-bound brigade fout_tls_bb.  engine_plain is a ghost field recording
the plaintext bytes handed to rustls_server_session_write, in order. -/
structure OutFState where
  buf : List Nat
  size : Nat
  bytes_in_rustls : Nat
  tls_bb : List OutItem
  engine_plain : List Nat
  deriving DecidableEq, Repr

/-- fout_plain_buf_to_rustls, src/tls_filter.c lines 499-542.  The engine
consumption wlen is an oracle parameter; rustls never reports more bytes
consumed than it was offered, which the List.take in the ghost field
reflects.  A zero consumption on a non-empty buffer is the EAGAIN error
path of lines 517-522. -/
def fout_plain_buf_to_rustls (st : OutFState) (wlen : Nat) : Except Status OutFState :=
  if st.buf.length = 0 then Except.ok st
  else
    let st1 := { st with
      bytes_in_rustls := st.bytes_in_rustls + wlen,
      engine_plain := st.engine_plain ++ st.buf.take wlen }
    if st.buf.length ≤ wlen then Except.ok { st1 with buf := [] }
    else if wlen = 0 then Except.error Status.eagain
    else Except.ok { st1 with buf := st.buf.drop wlen }

/-- brigade_tls_from_rustls, src/tls_filter.c lines 143-193, abstracted over
the engine: wantsWrite is rustls_server_session_wants_write and chunks are
the encrypted buffers obtained by the write loop.  The record-sizing policy
for the intermediate buffers does not change which bytes get appended and
is not modelled.  When the engine wanted writing, fout_bytes_in_rustls is
reset (line 182). -/
def brigade_tls_from_rustls (st : OutFState) (wantsWrite : Bool)
    (chunks : List (List Nat)) : OutFState :=
  if wantsWrite then
    { st with
      tls_bb := st.tls_bb ++ chunks.map OutItem.tls,
      bytes_in_rustls := 0 }
  else st

/-- The flush-when-full step at the head of fout_plain_buf_append,
src/tls_filter.c lines 554-560, including the assertion that the flush
made room (line 559). -/
def fout_append_flush_if_full (st : OutFState) (flushW : Nat) : Except Status OutFState :=
  if st.size - st.buf.length = 0 then
    match fout_plain_buf_to_rustls st flushW with
    | Except.error e => Except.error e
    | Except.ok st1 =>
      if st1.size - st1.buf.length = 0 then Except.error Status.assertfail
      else Except.ok st1
  else Except.ok st

/-- fout_plain_buf_append, src/tls_filter.c lines 544-642.  bdata is the
bucket content, isFile marks a file bucket, flushW and zcW are the engine
consumption oracles for the flush-when-full and for the direct write at
lines 612-613.  Returns the new state, the wlen out parameter, the bytes of
the segment left at the head of the caller brigade (the tail cut off by
apr_bucket_split at line 563 plus any remainder of a partial direct write),
and a ghost flag recording whether the direct (zero-copy) path was taken. -/
def fout_plain_buf_append (pref : Nat) (st : OutFState) (bdata : List Nat)
    (isFile : Bool) (flushW zcW : Nat) :
    Except Status (OutFState × Nat × List Nat × Bool) :=
  match fout_append_flush_if_full st flushW with
  | Except.error e => Except.error e
  | Except.ok st1 =>
    let remain := st1.size - st1.buf.length
    let d := if bdata.length > remain then bdata.take remain else bdata
    let rest0 := if bdata.length > remain then bdata.drop remain else []
    if isFile then
      Except.ok ({ st1 with buf := st1.buf ++ d }, d.length, rest0, false)
    else if st1.buf.length = 0 ∧ (d.length ≥ st1.size ∨ d.length > pref) then
      Except.ok ({ st1 with
          bytes_in_rustls := st1.bytes_in_rustls + zcW,
          engine_plain := st1.engine_plain ++ d.take zcW },
        zcW, (if d.length ≤ zcW then [] else d.drop zcW) ++ rest0, true)
    else
      Except.ok ({ st1 with buf := st1.buf ++ d }, d.length, rest0, false)

/-- Connection-level flags and ghost counters: state, aborted and the
session presence are conn_rec/tls_conf_conn_t fields; close_notifies,
flushes and tls_writes count the calls to
rustls_server_session_send_close_notify, to flush_tls_from_rustls and to
write_all_tls_from_rustls (ghost). -/
structure Conn where
  state : ConnState
  aborted : Bool
  has_session : Bool
  close_notifies : Nat
  flushes : Nat
  tls_writes : Nat
  deriving DecidableEq, Repr

/-- filter_abort, src/tls_filter.c lines 238-251: only when the connection
is not yet DONE a close-notify is sent and a best-effort flush happens,
then the connection is marked aborted and DONE; the call always reports
ECONNABORTED. -/
def filter_abort (c : Conn) : Conn × Status :=
  if c.state ≠ ConnState.done then
    ({ c with
        close_notifies := c.close_notifies + 1,
        flushes := c.flushes + 1,
        aborted := true,
        state := ConnState.done }, Status.econnaborted)
  else (c, Status.econnaborted)

/-- The metadata branch of the filter_conn_output loop, src/tls_filter.c
lines 687-706: on an EOC bucket a close-notify is sent and the state moves
to NOTIFIED; then the plain buffer is flushed into the engine and the
engine backlog is drained into fout_tls_bb; finally the metadata bucket is
appended behind that data. -/
def filter_output_meta (c : Conn) (st : OutFState) (isEOC : Bool)
    (flushW : Nat) (wantsWrite : Bool) (chunks : List (List Nat)) :
    Except Status (Conn × OutFState) :=
  let c0 := if isEOC then
      { c with close_notifies := c.close_notifies + 1, state := ConnState.notified }
    else c
  match fout_plain_buf_to_rustls st flushW with
  | Except.error e => Except.error e
  | Except.ok st1 =>
    let st2 := brigade_tls_from_rustls st1 wantsWrite chunks
    Except.ok (c0, { st2 with tls_bb := st2.tls_bb ++ [OutItem.meta isEOC] })

/-- A bucket arriving at the outbound filter. -/
inductive OutBucket where
  | data (bytes : List Nat) (isFile : Bool)
  | meta (isEOC : Bool)
  deriving DecidableEq, Repr

/-- The entry checks of filter_conn_output, src/tls_filter.c lines 665-678:
an aborted connection discards the brigade and fails with ECONNABORTED;
with no session or in state DONE the brigade is passed through to the next
filter unchanged.  Returns (connection, brigade left with the caller,
brigade passed to the next filter, status); none means neither check fired
and the main loop is entered instead. -/
def filter_conn_output_entry (c : Conn) (bb : List OutBucket) :
    Option (Conn × List OutBucket × List OutBucket × Status) :=
  if c.aborted then some (c, [], [], Status.econnaborted)
  else if ¬ c.has_session ∨ c.state = ConnState.done then
    some (c, [], bb, Status.success)
  else none

/-! ## Inbound filter (src/tls_filter.c, read path) -/

/-- A bucket of the inbound TLS brigade: a byte chunk, or an EOS marker. -/
structure Chunk where
  data : List Nat
  eos : Bool
  deriving DecidableEq, Repr

/-- The bytes held by a brigade, in order. -/
def chunksBytes (cs : List Chunk) : List Nat :=
  (cs.map Chunk.data).flatten

/-- Inbound TLS-side state of the filter (fin_* fields of tls_filter_ctx_t):
fin_tls_bb, the optional sniff copy fin_tls_buffer_bb, and
fin_bytes_in_rustls.  session_fed is a ghost list of the encrypted bytes
consumed by the rustls session and arrived a ghost list of all bytes
obtained from the network, both in order. -/
structure RtState where
  tls_bb : List Chunk
  buffer_bb : Option (List Nat)
  bytes_in_rustls : Nat
  session_fed : List Nat
  arrived : List Nat
  deriving DecidableEq, Repr

/-- Result of the read loop of read_tls_to_rustls: final state, the passed
counter, the status at loop exit (eof exactly when an EOS bucket was met),
and the trace of the block modes used by apr_bucket_read. -/
structure RtLoopRes where
  st : RtState
  passed : Nat
  raw : Status
  reads : List BlockMode
  deriving DecidableEq, Repr

/-- One consuming iteration of the read loop, src/tls_filter.c lines
83-103: the session consumes rlen of the offered bucket bytes, the same
consumed bytes are appended to the sniff copy when present (line 92), the
bucket is deleted or trimmed by the consumed amount, and the
fin_bytes_in_rustls counter grows by the offered amount (line 101). -/
def rt_consume (st : RtState) (b : Chunk) (rest : List Chunk) (rlen : Nat) : RtState :=
  { st with
      tls_bb := if b.data.length ≤ rlen then rest
        else ({ data := b.data.drop rlen, eos := b.eos } : Chunk) :: rest,
      buffer_bb := st.buffer_bb.map (· ++ b.data.take rlen),
      bytes_in_rustls := st.bytes_in_rustls + b.data.length,
      session_fed := st.session_fed ++ b.data.take rlen }

/-- The while loop of read_tls_to_rustls, src/tls_filter.c lines 64-107.
fuel bounds the modelled iterations (none = out of fuel, nothing is claimed
then); rlens holds the byte counts rustls_server_session_read_tls consumes
for each non-empty bucket read, defaulting to full consumption and clamped
to the offered amount, as the rustls API guarantees.  apr_bucket_read is
modelled as always succeeding with the bucket bytes (the morphing-bucket
EOF branch at lines 75-78 is not modelled).  On EOS the code calls
apr_brigade_cleanup(fctx->fin_tls_buffer_bb) unconditionally (line 70):
with the sniff copy attached the copy is emptied and the loop leaves with
APR_EOF, but with the field NULL — as in every phase outside sniffing —
that cleanup dereferences a NULL brigade; the segfault marker records this
crash. -/
def rtLoop (fuel : Nat) (finLen : Nat) (block : BlockMode) (rlens : List Nat)
    (passed : Nat) (st : RtState) : Option RtLoopRes :=
  match fuel with
  | 0 => none
  | Nat.succ fuel =>
    match st.tls_bb with
    | [] => some ⟨st, passed, Status.success, []⟩
    | b :: rest =>
      if finLen ≤ passed then some ⟨st, passed, Status.success, []⟩
      else if b.eos then
        match st.buffer_bb with
        | some _ => some ⟨{ st with buffer_bb := some [] }, passed, Status.eof, []⟩
        | none => some ⟨st, passed, Status.segfault, []⟩
      else if b.data.length = 0 then
        match rtLoop fuel finLen block rlens passed { st with tls_bb := rest } with
        | none => none
        | some r => some { r with reads := block :: r.reads }
      else
        match rtLoop fuel finLen BlockMode.nonblocking rlens.tail
            (passed + min (rlens.headD b.data.length) b.data.length)
            (rt_consume st b rest (min (rlens.headD b.data.length) b.data.length)) with
        | none => none
        | some r => some { r with reads := block :: r.reads }

/-- Result of one read_tls_to_rustls call: final state, the status
returned, the status before the cleanup mapping, the passed counter, the
block mode of the ap_get_brigade network pull if one happened, and the
trace of bucket-read block modes. -/
structure RtCallRes where
  st : RtState
  status : Status
  raw : Status
  passed : Nat
  pull : Option BlockMode
  reads : List BlockMode
  deriving DecidableEq, Repr

/-- The cleanup mapping at the end of read_tls_to_rustls, src/tls_filter.c
lines 109-133: a failing process_new_packets (run only when bytes were
passed) maps to ECONNRESET; EOF with progress becomes success; a fruitless
success under a non-blocking caller preference becomes EAGAIN.  A crash
inside the loop never reaches this mapping, so the segfault marker passes
through unchanged. -/
def rt_cleanup (fin_block : BlockMode) (processOk : Bool) (r : RtLoopRes)
    (pull : Option BlockMode) : RtCallRes :=
  let final :=
    if r.raw = Status.segfault then Status.segfault
    else if 0 < r.passed ∧ ¬ processOk then Status.econnreset
    else if r.raw = Status.eof ∧ 0 < r.passed then Status.success
    else if r.raw = Status.success ∧ r.passed = 0 ∧ fin_block = BlockMode.nonblocking then
      Status.eagain
    else r.raw
  ⟨r.st, final, r.raw, r.passed, pull, r.reads⟩

/-- read_tls_to_rustls, src/tls_filter.c lines 44-135.  When fin_tls_bb is
empty, ap_get_brigade pulls from the network with the caller preference
fin_block (net is its outcome); then the loop feeds the session, with the
local block mode downgraded to non-blocking once a non-empty chunk was
consumed (line 85); finally the cleanup mapping is applied. -/
def read_tls_to_rustls (fuel : Nat) (fin_block : BlockMode)
    (net : Except Status (List Chunk)) (rlens : List Nat) (processOk : Bool)
    (finLen : Nat) (st : RtState) : Option RtCallRes :=
  if st.tls_bb.isEmpty then
    match net with
    | Except.error e => some ⟨st, e, e, 0, some fin_block, []⟩
    | Except.ok cs =>
      let st0 : RtState :=
        { st with tls_bb := st.tls_bb ++ cs, arrived := st.arrived ++ chunksBytes cs }
      match rtLoop fuel finLen fin_block rlens 0 st0 with
      | none => none
      | some r => some (rt_cleanup fin_block processOk r (some fin_block))
  else
    match rtLoop fuel finLen fin_block rlens 0 st with
    | none => none
    | some r => some (rt_cleanup fin_block processOk r none)

/-- Oracle for one iteration of the refill loop of filter_conn_input: the
plaintext amount rustls_server_session_read produces, and the inputs of the
read_tls_to_rustls call made when nothing was produced. -/
structure RefillOracle where
  sessionReadLen : Nat
  net : Except Status (List Chunk)
  rlens : List Nat
  processOk : Bool
  fuel : Nat

/-- Inbound filter state: TLS side plus the decrypted brigade fin_plain_bb. -/
structure FinState where
  rt : RtState
  plain_bb : List Nat
  deriving DecidableEq, Repr

/-- Result of the refill loop: state, status, trace of network pulls. -/
structure RefillRes where
  fin : FinState
  status : Status
  pulls : List BlockMode
  deriving DecidableEq, Repr

/-- The refill loop of filter_conn_input, src/tls_filter.c lines 415-443:
while fin_plain_bb is empty, ask the session for plaintext when it may hold
some (fin_bytes_in_rustls positive); if nothing came, reset that counter
and pull more TLS data from the network via read_tls_to_rustls, leaving on
any non-success including EAGAIN.  The plaintext bytes are modelled as zero
bytes since only their amount matters here; the oracle list also serves as
fuel. -/
def refill_plain (fin_block : BlockMode) (finLen : Nat) :
    List RefillOracle → FinState → Option RefillRes
  | [], st =>
    if st.plain_bb.isEmpty then none
    else some ⟨st, Status.success, []⟩
  | o :: os, st =>
    if st.plain_bb.isEmpty then
      let rlen := if 0 < st.rt.bytes_in_rustls then o.sessionReadLen else 0
      if rlen = 0 then
        match read_tls_to_rustls o.fuel fin_block o.net o.rlens o.processOk finLen
            { st.rt with bytes_in_rustls := 0 } with
        | none => none
        | some r =>
          if r.status = Status.success then
            match refill_plain fin_block finLen os { st with rt := r.st } with
            | none => none
            | some rr => some { rr with pulls := r.pull.toList ++ rr.pulls }
          else some ⟨{ st with rt := r.st }, r.status, r.pull.toList⟩
      else
        refill_plain fin_block finLen os
          { st with plain_bb := st.plain_bb ++ List.replicate rlen 0 }
    else some ⟨st, Status.success, []⟩

/-- The ap_input_mode_t values dispatched by filter_conn_input. -/
inductive InputMode where
  | readbytes
  | getline
  | eatcrlf
  | speculative
  | exhaustive
  | init_mode
  deriving DecidableEq, Repr

/-- HUGE_STRING_LEN, the httpd default line cap used at line 446. -/
def HUGE_STRING_LEN : Nat := 8192

/-- Modelled from the spec: tls_util_brigade_split_line (tls_util.c is not
among the sources); line mode returns data up to and including a line
terminator, capped at the given maximum.  Returns the line and the rest. -/
def brigade_split_line (src : List Nat) (maxLen : Nat) : List Nat × List Nat :=
  let n := match src.findIdx? fun b => b == 10 with
    | some i => min (i + 1) maxLen
    | none => maxLen
  (src.take n, src.drop n)

/-- Modelled from the spec: tls_util_brigade_transfer (tls_util.c is not
among the sources); moves up to n bytes from the buffered plaintext. -/
def brigade_transfer (src : List Nat) (n : Nat) : List Nat × List Nat :=
  (src.take n, src.drop n)

/-- Modelled from the spec: tls_util_brigade_copy (tls_util.c is not among
the sources); copies up to n bytes without consuming them. -/
def brigade_copy (src : List Nat) (n : Nat) : List Nat × List Nat :=
  (src.take n, src)

/-- Oracle for one filter_conn_input call: the summarized outcomes of the
pre-handshake and handshake sub-phases (their internal effects are the
subject of other theorems), and the refill-loop oracles. -/
structure InOracle where
  preHs : Status
  hs : Status
  refill : List RefillOracle

/-- Result of filter_conn_input: connection, inbound state, status, bytes
delivered into the caller brigade, and whether the call was passed through
to the next filter (no-session case, line 376-378). -/
structure InputRes where
  conn : Conn
  fin : FinState
  status : Status
  delivered : List Nat
  passthrough : Bool
  deriving DecidableEq, Repr

/-- filter_conn_input, src/tls_filter.c lines 360-497: abort check (line
372), pass-through without a session (line 376), the pre-handshake and
handshake phases with their state transitions (lines 384-399, the
sub-calls summarized by the oracle statuses), early exit on AP_MODE_INIT
(line 401), the refill loop, and the mode dispatch of lines 445-470 where
any unhandled mode yields APR_ENOTIMPL; ap_assert(readbytes > 0) for the
byte-count modes is the assertfail status.  The write_all_tls_from_rustls
call after a successful dispatch (line 472, result ignored) is recorded in
the tls_writes ghost counter. -/
def filter_conn_input (c : Conn) (fin : FinState) (mode : InputMode)
    (block : BlockMode) (readbytes : Nat) (finLen : Nat) (o : InOracle) :
    Option InputRes :=
  if c.aborted then
    some ⟨(filter_abort c).1, fin, (filter_abort c).2, [], false⟩
  else if ¬ c.has_session then
    some ⟨c, fin, Status.success, [], true⟩
  else
    let s1 : Conn × Status :=
      if c.state = ConnState.pre_handshake then
        if o.preHs = Status.success then
          ({ c with state := ConnState.handshake }, Status.success)
        else (c, o.preHs)
      else (c, Status.success)
    if s1.2 ≠ Status.success then some ⟨s1.1, fin, s1.2, [], false⟩
    else
      let s2 : Conn × Status :=
        if s1.1.state = ConnState.handshake then
          if o.hs = Status.success then
            ({ s1.1 with state := ConnState.traffic }, Status.success)
          else (s1.1, o.hs)
        else (s1.1, Status.success)
      if s2.2 ≠ Status.success then some ⟨s2.1, fin, s2.2, [], false⟩
      else
        let c2 := s2.1
        if mode = InputMode.init_mode then some ⟨c2, fin, Status.success, [], false⟩
        else
          match refill_plain block finLen o.refill fin with
          | none => none
          | some rr =>
            if rr.status ≠ Status.success then some ⟨c2, rr.fin, rr.status, [], false⟩
            else
              let fin2 := rr.fin
              if mode = InputMode.getline then
                let rb := if readbytes = 0 then HUGE_STRING_LEN else readbytes
                let t := brigade_split_line fin2.plain_bb rb
                some ⟨{ c2 with tls_writes := c2.tls_writes + 1 },
                  { fin2 with plain_bb := t.2 }, Status.success, t.1, false⟩
              else if mode = InputMode.readbytes then
                if readbytes = 0 then some ⟨c2, fin2, Status.assertfail, [], false⟩
                else
                  let t := brigade_transfer fin2.plain_bb readbytes
                  some ⟨{ c2 with tls_writes := c2.tls_writes + 1 },
                    { fin2 with plain_bb := t.2 }, Status.success, t.1, false⟩
              else if mode = InputMode.speculative then
                if readbytes = 0 then some ⟨c2, fin2, Status.assertfail, [], false⟩
                else
                  let t := brigade_copy fin2.plain_bb readbytes
                  some ⟨{ c2 with tls_writes := c2.tls_writes + 1 },
                    { fin2 with plain_bb := t.2 }, Status.success, t.1, false⟩
              else if mode = InputMode.exhaustive then
                some ⟨{ c2 with tls_writes := c2.tls_writes + 1 },
                  { fin2 with plain_bb := [] }, Status.success, fin2.plain_bb, false⟩
              else
                some ⟨c2, fin2, Status.enotimpl, [], false⟩

end ModTls

namespace ModTls

/-! ## Theorems -/

/-- C2: the claim says a server is enabled exactly when one of its addresses
matches a configured TLS address with the same port, the same address length
and the same address bytes.  The code contradicts this: the memcmp in
we_listen_on (src/tls_core.c lines 31-32) compares the TLS address bytes
with themselves, so two addresses differing only in their bytes still match
and the server is enabled. -/
theorem c2_we_listen_on_ignores_address_bytes :
    we_listen_on [⟨443, 4, [10, 0, 0, 1]⟩] [⟨443, 4, [192, 168, 0, 9]⟩] = true
    ∧ tls_core_init_enabled [⟨443, 4, [10, 0, 0, 1]⟩] [⟨443, 4, [192, 168, 0, 9]⟩]
        TlsFlag.unset none = TlsFlag.flagTrue
    ∧ ([10, 0, 0, 1] : List Nat) ≠ [192, 168, 0, 9] :=
  ⟨rfl, rfl, by decide⟩

/-- C10: the claim says tls_var_handshake_done returns without dereferencing
an absent connection context and does not perform the final store into
subprocess_env on a null context.  The code contradicts this: the guard at
src/tls_var.c line 157 jumps to the cleanup label, and the cleanup label is
exactly that store (line 174), so a null context is dereferenced; on an
IGNORED context the store is performed as well (writing NULL). -/
theorem c10_handshake_done_null_store :
    tls_var_handshake_done none = Except.error "null cc dereferenced at cleanup store"
    ∧ tls_var_handshake_done
        (some ⟨ConnState.ignored, none, none, none, false, none⟩)
      = Except.ok ⟨ConnState.ignored, none, none, none, false, none⟩ :=
  ⟨rfl, rfl⟩

/-- Helper: fout_plain_buf_to_rustls keeps the buffer within its capacity,
never grows the buffer, and leaves the capacity unchanged. -/
theorem fout_to_rustls_bound {st : OutFState} {wlen : Nat} {st1 : OutFState}
    (hinv : st.buf.length ≤ st.size)
    (h : fout_plain_buf_to_rustls st wlen = Except.ok st1) :
    st1.buf.length ≤ st1.size ∧ st1.size = st.size ∧ st1.buf.length ≤ st.buf.length := by
  unfold fout_plain_buf_to_rustls at h
  split_ifs at h with h0 h1 h2 <;> cases h
  · exact ⟨hinv, rfl, Nat.le_refl _⟩
  · refine ⟨?_, rfl, ?_⟩ <;> simp
  · refine ⟨?_, rfl, ?_⟩ <;> (simp only [List.length_drop]; omega)

/-- Helper: the flush-when-full step keeps the buffer within its capacity
and leaves the capacity unchanged. -/
theorem fout_flush_if_full_bound {st : OutFState} {flushW : Nat} {st1 : OutFState}
    (hinv : st.buf.length ≤ st.size)
    (h : fout_append_flush_if_full st flushW = Except.ok st1) :
    st1.buf.length ≤ st1.size ∧ st1.size = st.size := by
  unfold fout_append_flush_if_full at h
  by_cases hfull : st.size - st.buf.length = 0
  · rw [if_pos hfull] at h
    cases hfl : fout_plain_buf_to_rustls st flushW with
    | error e =>
      rw [hfl] at h
      cases h
    | ok stf =>
      rw [hfl] at h
      dsimp only at h
      by_cases hmt : stf.size - stf.buf.length = 0
      · rw [if_pos hmt] at h
        cases h
      · rw [if_neg hmt] at h
        simp only [Except.ok.injEq] at h
        subst h
        exact ⟨(fout_to_rustls_bound hinv hfl).1, (fout_to_rustls_bound hinv hfl).2.1⟩
  · rw [if_neg hfull] at h
    simp only [Except.ok.injEq] at h
    subst h
    exact ⟨hinv, rfl⟩

/-- C3 counterexample: with the buffer empty and capacity 8 (pref size 4,
capacity 2 times pref as set in tls_filter_conn_init, src/tls_filter.c
line 791), a 5-byte segment, smaller than the capacity, is still handed
directly (zero-copy) to the engine, because the condition at
src/tls_filter.c lines 606-607 also fires when the segment merely exceeds
TLS_PREF_WRITE_SIZE. -/
theorem c3_zero_copy_below_capacity :
    fout_plain_buf_append 4 ⟨[], 8, 0, [], []⟩ [1, 2, 3, 4, 5] false 0 5
      = Except.ok (⟨[], 8, 5, [], [1, 2, 3, 4, 5]⟩, 5, [], true)
    ∧ (5 : Nat) < 8 :=
  ⟨rfl, by decide⟩

/-- C3 amended: a non-file segment is handed directly (zero-copy) to the
engine exactly when, after the flush-when-full step, the accumulation
buffer is empty and the segment (capped by apr_bucket_split to the space
remaining in the buffer) is at least as large as the buffer capacity or
strictly larger than TLS_PREF_WRITE_SIZE; file segments are always copied. -/
theorem c3_amended_zero_copy_condition (pref : Nat) (st st1 : OutFState)
    (bdata : List Nat) (isFile : Bool) (flushW zcW : Nat)
    (st2 : OutFState) (w : Nat) (rest : List Nat) (z : Bool)
    (h1 : fout_append_flush_if_full st flushW = Except.ok st1)
    (h2 : fout_plain_buf_append pref st bdata isFile flushW zcW
        = Except.ok (st2, w, rest, z)) :
    z = true ↔
      (isFile = false ∧ st1.buf.length = 0 ∧
        ((if bdata.length > st1.size - st1.buf.length then
            bdata.take (st1.size - st1.buf.length) else bdata).length ≥ st1.size
         ∨ (if bdata.length > st1.size - st1.buf.length then
            bdata.take (st1.size - st1.buf.length) else bdata).length > pref)) := by
  unfold fout_plain_buf_append at h2
  rw [h1] at h2
  dsimp only at h2
  by_cases hfile : isFile = true
  · rw [if_pos hfile] at h2
    subst hfile
    simp only [Except.ok.injEq, Prod.mk.injEq] at h2
    obtain ⟨-, -, -, hz⟩ := h2
    subst hz
    constructor
    · intro hzz
      exact absurd hzz (by decide)
    · rintro ⟨hfe, -⟩
      exact absurd hfe (by decide)
  · rw [if_neg hfile] at h2
    have hfe : isFile = false := by
      cases isFile
      · rfl
      · exact absurd rfl hfile
    subst hfe
    by_cases hzc : st1.buf.length = 0 ∧
        ((if bdata.length > st1.size - st1.buf.length then
            bdata.take (st1.size - st1.buf.length) else bdata).length ≥ st1.size
         ∨ (if bdata.length > st1.size - st1.buf.length then
            bdata.take (st1.size - st1.buf.length) else bdata).length > pref)
    · rw [if_pos hzc] at h2
      simp only [Except.ok.injEq, Prod.mk.injEq] at h2
      obtain ⟨-, -, -, hz⟩ := h2
      subst hz
      exact ⟨fun _ => ⟨rfl, hzc.1, hzc.2⟩, fun _ => rfl⟩
    · rw [if_neg hzc] at h2
      simp only [Except.ok.injEq, Prod.mk.injEq] at h2
      obtain ⟨-, -, -, hz⟩ := h2
      subst hz
      constructor
      · intro hzz
        exact absurd hzz (by decide)
      · rintro ⟨-, hb, hco⟩
        exact absurd ⟨hb, hco⟩ hzc

/-- C3 amended witness at a concrete input: the 5-byte segment with empty
buffer, capacity 8 and pref 4 takes the zero-copy path, and the condition
of the amended statement evaluates to true there. -/
theorem c3_amended_witness :
    true = true ↔
      (false = false ∧ (OutFState.mk [] 8 0 [] []).buf.length = 0 ∧
        ((if ([1, 2, 3, 4, 5] : List Nat).length >
              (OutFState.mk [] 8 0 [] []).size - (OutFState.mk [] 8 0 [] []).buf.length then
            ([1, 2, 3, 4, 5] : List Nat).take
              ((OutFState.mk [] 8 0 [] []).size - (OutFState.mk [] 8 0 [] []).buf.length)
          else [1, 2, 3, 4, 5]).length ≥ (OutFState.mk [] 8 0 [] []).size
         ∨ (if ([1, 2, 3, 4, 5] : List Nat).length >
              (OutFState.mk [] 8 0 [] []).size - (OutFState.mk [] 8 0 [] []).buf.length then
            ([1, 2, 3, 4, 5] : List Nat).take
              ((OutFState.mk [] 8 0 [] []).size - (OutFState.mk [] 8 0 [] []).buf.length)
          else [1, 2, 3, 4, 5]).length > 4)) :=
  c3_amended_zero_copy_condition 4 ⟨[], 8, 0, [], []⟩ ⟨[], 8, 0, [], []⟩
    [1, 2, 3, 4, 5] false 0 5 ⟨[], 8, 5, [], [1, 2, 3, 4, 5]⟩ 5 [] true rfl rfl

/-- C4: the outbound plaintext accumulation buffer never exceeds its
capacity: both the flush to the engine and the append preserve the bound
fout_buf_plain_len less-or-equal fout_buf_plain_size, for every engine
consumption oracle, with the capacity unchanged. -/
theorem c4_plain_buffer_bounded (st : OutFState)
    (hinv : st.buf.length ≤ st.size) :
    (∀ wlen st1, fout_plain_buf_to_rustls st wlen = Except.ok st1 →
        st1.buf.length ≤ st1.size ∧ st1.size = st.size)
    ∧ (∀ pref bdata isFile flushW zcW st2 w rest z,
        fout_plain_buf_append pref st bdata isFile flushW zcW
            = Except.ok (st2, w, rest, z) →
        st2.buf.length ≤ st2.size ∧ st2.size = st.size) := by
  constructor
  · intro wlen st1 h
    exact ⟨(fout_to_rustls_bound hinv h).1, (fout_to_rustls_bound hinv h).2.1⟩
  · intro pref bdata isFile flushW zcW st2 w rest z h
    unfold fout_plain_buf_append at h
    cases hst1 : fout_append_flush_if_full st flushW with
    | error e =>
      rw [hst1] at h
      cases h
    | ok st1 =>
      rw [hst1] at h
      dsimp only at h
      have hb1 : st1.buf.length ≤ st1.size ∧ st1.size = st.size :=
        fout_flush_if_full_bound hinv hst1
      have hd : (if bdata.length > st1.size - st1.buf.length then
          bdata.take (st1.size - st1.buf.length) else bdata).length
            ≤ st1.size - st1.buf.length := by
        split_ifs with hgt
        · simp only [List.length_take]
          omega
        · omega
      by_cases hfile : isFile = true
      · rw [if_pos hfile] at h
        simp only [Except.ok.injEq, Prod.mk.injEq] at h
        obtain ⟨hs, -, -, -⟩ := h
        subst hs
        refine ⟨?_, hb1.2⟩
        simp only [List.length_append]
        omega
      · rw [if_neg hfile] at h
        by_cases hzc : st1.buf.length = 0 ∧
            ((if bdata.length > st1.size - st1.buf.length then
                bdata.take (st1.size - st1.buf.length) else bdata).length ≥ st1.size
             ∨ (if bdata.length > st1.size - st1.buf.length then
                bdata.take (st1.size - st1.buf.length) else bdata).length > pref)
        · rw [if_pos hzc] at h
          simp only [Except.ok.injEq, Prod.mk.injEq] at h
          obtain ⟨hs, -, -, -⟩ := h
          subst hs
          exact hb1
        · rw [if_neg hzc] at h
          simp only [Except.ok.injEq, Prod.mk.injEq] at h
          obtain ⟨hs, -, -, -⟩ := h
          subst hs
          refine ⟨?_, hb1.2⟩
          simp only [List.length_append]
          omega

/-- C4 witness at a concrete input: appending a 2-byte segment to a 1-byte
buffer of capacity 4 keeps the buffer within its capacity. -/
theorem c4_witness :
    (OutFState.mk [1, 5, 6] 4 0 [] []).buf.length ≤ (OutFState.mk [1, 5, 6] 4 0 [] []).size
    ∧ (OutFState.mk [1, 5, 6] 4 0 [] []).size = (OutFState.mk [1] 4 0 [] []).size :=
  (c4_plain_buffer_bounded ⟨[1], 4, 0, [], []⟩ (by decide)).2
    10 [5, 6] false 0 0 ⟨[1, 5, 6], 4, 0, [], []⟩ 2 [] false rfl

/-- C8: when the outbound filter meets a metadata bucket, the plaintext
accumulation buffer is flushed into the engine (in order), the engine's
pending encrypted output is drained into the network-bound brigade, and
only then is the marker appended behind that data; an EOC (end-of-output)
marker additionally sends a close-notify and moves the state to NOTIFIED,
while any other marker leaves the connection untouched. -/
theorem c8_meta_drains_then_appends (c : Conn) (st : OutFState) (isEOC : Bool)
    (flushW : Nat) (wantsWrite : Bool) (chunks : List (List Nat))
    (hW : st.buf.length ≤ flushW) :
    ∃ c0 st2, filter_output_meta c st isEOC flushW wantsWrite chunks
        = Except.ok (c0, st2)
    ∧ st2.tls_bb = st.tls_bb
        ++ (if wantsWrite then chunks.map OutItem.tls else []) ++ [OutItem.meta isEOC]
    ∧ st2.buf = []
    ∧ st2.engine_plain = st.engine_plain ++ st.buf
    ∧ (isEOC = true → c0.close_notifies = c.close_notifies + 1
        ∧ c0.state = ConnState.notified ∧ c0.aborted = c.aborted)
    ∧ (isEOC = false → c0 = c) := by
  unfold filter_output_meta
  have hfl : fout_plain_buf_to_rustls st flushW
      = Except.ok (if st.buf.length = 0 then st else
          { st with
              buf := [],
              bytes_in_rustls := st.bytes_in_rustls + flushW,
              engine_plain := st.engine_plain ++ st.buf.take flushW }) := by
    unfold fout_plain_buf_to_rustls
    by_cases h0 : st.buf.length = 0
    · rw [if_pos h0, if_pos h0]
    · rw [if_neg h0, if_neg h0]
      dsimp only
      rw [if_pos hW]
  rw [hfl]
  by_cases h0 : st.buf.length = 0
  · have hbuf : st.buf = [] := List.length_eq_zero.mp h0
    simp only [if_pos h0]
    unfold brigade_tls_from_rustls
    cases isEOC <;> cases wantsWrite <;>
      refine ⟨_, _, rfl, by simp [hbuf], by simp [hbuf], by simp [hbuf], ?_, ?_⟩ <;>
        simp
  · have htake : st.buf.take flushW = st.buf := List.take_of_length_le hW
    simp only [if_neg h0]
    unfold brigade_tls_from_rustls
    cases isEOC <;> cases wantsWrite <;>
      refine ⟨_, _, rfl, by simp [htake], by simp, by simp [htake], ?_, ?_⟩ <;>
        simp

/-- C8 witness at a concrete input: a flush marker behind one buffered byte,
with the engine producing one encrypted chunk. -/
theorem c8_witness :
    ∃ c0 st2, filter_output_meta ⟨ConnState.traffic, false, true, 0, 0, 0⟩
        ⟨[9], 4, 1, [OutItem.tls [7]], []⟩ true 1 true [[3, 4]]
        = Except.ok (c0, st2)
    ∧ st2.tls_bb = [OutItem.tls [7]]
        ++ (if true then [[3, 4]].map OutItem.tls else []) ++ [OutItem.meta true]
    ∧ st2.buf = []
    ∧ st2.engine_plain = [] ++ [9]
    ∧ (true = true → c0.close_notifies = 0 + 1
        ∧ c0.state = ConnState.notified ∧ c0.aborted = false)
    ∧ (true = false → c0 = ⟨ConnState.traffic, false, true, 0, 0, 0⟩) :=
  c8_meta_drains_then_appends ⟨ConnState.traffic, false, true, 0, 0, 0⟩
    ⟨[9], 4, 1, [OutItem.tls [7]], []⟩ true 1 true [[3, 4]] (by decide)

/-- Helper: within one run of the read loop, the bucket-read block modes
form a block of the starting mode followed by a block of non-blocking
reads: once the mode is downgraded it never goes back. -/
theorem rtLoop_reads_shape {fuel finLen : Nat} {blk : BlockMode} {rlens : List Nat}
    {passed : Nat} {st : RtState} {r : RtLoopRes}
    (h : rtLoop fuel finLen blk rlens passed st = some r) :
    ∃ a b, r.reads = List.replicate a blk ++ List.replicate b BlockMode.nonblocking := by
  induction fuel generalizing blk rlens passed st r with
  | zero => cases h
  | succ fuel ih =>
    rw [rtLoop] at h
    cases hbb : st.tls_bb with
    | nil =>
      rw [hbb] at h
      simp only [Option.some.injEq] at h
      exact ⟨0, 0, by rw [← h]; rfl⟩
    | cons b rest =>
      rw [hbb] at h
      dsimp only at h
      by_cases hp : finLen ≤ passed
      · rw [if_pos hp] at h
        simp only [Option.some.injEq] at h
        exact ⟨0, 0, by rw [← h]; rfl⟩
      · rw [if_neg hp] at h
        by_cases he : b.eos = true
        · rw [if_pos he] at h
          cases hbuf : st.buffer_bb with
          | some l =>
            rw [hbuf] at h
            dsimp only at h
            simp only [Option.some.injEq] at h
            exact ⟨0, 0, by rw [← h]; rfl⟩
          | none =>
            rw [hbuf] at h
            dsimp only at h
            simp only [Option.some.injEq] at h
            exact ⟨0, 0, by rw [← h]; rfl⟩
        · rw [if_neg he] at h
          by_cases hz : b.data.length = 0
          · rw [if_pos hz] at h
            cases hrec : rtLoop fuel finLen blk rlens passed { st with tls_bb := rest } with
            | none =>
              rw [hrec] at h
              cases h
            | some r0 =>
              rw [hrec] at h
              simp only [Option.some.injEq] at h
              obtain ⟨a, c, hr⟩ := ih hrec
              refine ⟨a + 1, c, ?_⟩
              rw [← h]
              dsimp only
              rw [hr, List.replicate_succ, List.cons_append]
          · rw [if_neg hz] at h
            cases hrec : rtLoop fuel finLen BlockMode.nonblocking rlens.tail
                (passed + min (rlens.headD b.data.length) b.data.length)
                (rt_consume st b rest (min (rlens.headD b.data.length) b.data.length)) with
            | none =>
              rw [hrec] at h
              cases h
            | some r0 =>
              rw [hrec] at h
              simp only [Option.some.injEq] at h
              obtain ⟨a, c, hr⟩ := ih hrec
              refine ⟨1, a + c, ?_⟩
              rw [← h]
              dsimp only
              rw [hr, List.replicate_add, List.replicate_succ]
              simp

/-- Helper: one read_tls_to_rustls call performs at most one network pull,
and when it does, the pull uses the caller preference fin_block. -/
theorem read_tls_pull_shape {fuel : Nat} {fb : BlockMode}
    {net : Except Status (List Chunk)} {rlens : List Nat} {pOk : Bool}
    {finLen : Nat} {st : RtState} {r : RtCallRes}
    (h : read_tls_to_rustls fuel fb net rlens pOk finLen st = some r) :
    r.pull = none ∨ r.pull = some fb := by
  unfold read_tls_to_rustls at h
  by_cases hemp : st.tls_bb.isEmpty
  · rw [if_pos hemp] at h
    cases net with
    | error e =>
      simp only [Option.some.injEq] at h
      right
      rw [← h]
    | ok cs =>
      dsimp only at h
      cases hrec : rtLoop fuel finLen fb rlens 0
          { st with tls_bb := st.tls_bb ++ cs, arrived := st.arrived ++ chunksBytes cs } with
      | none =>
        rw [hrec] at h
        cases h
      | some r0 =>
        rw [hrec] at h
        simp only [Option.some.injEq] at h
        right
        rw [← h]
        rfl
  · rw [if_neg hemp] at h
    cases hrec : rtLoop fuel finLen fb rlens 0 st with
    | none =>
      rw [hrec] at h
      cases h
    | some r0 =>
      rw [hrec] at h
      simp only [Option.some.injEq] at h
      left
      rw [← h]
      rfl

/-- Helper: every network pull of the refill loop uses the caller
preference fin_block; no downgrade is carried from one helper call to the
next. -/
theorem refill_pulls_eq {fb : BlockMode} {finLen : Nat} {os : List RefillOracle}
    {st : FinState} {r : RefillRes}
    (h : refill_plain fb finLen os st = some r) :
    ∀ m ∈ r.pulls, m = fb := by
  induction os generalizing st r with
  | nil =>
    rw [refill_plain] at h
    by_cases hp : st.plain_bb.isEmpty
    · rw [if_pos hp] at h
      cases h
    · rw [if_neg hp] at h
      simp only [Option.some.injEq] at h
      intro m hm
      rw [← h] at hm
      simp at hm
  | cons o os ih =>
    rw [refill_plain] at h
    by_cases hp : st.plain_bb.isEmpty
    · rw [if_pos hp] at h
      dsimp only at h
      by_cases hr0 : (if 0 < st.rt.bytes_in_rustls then o.sessionReadLen else 0) = 0
      · rw [if_pos hr0] at h
        cases hcall : read_tls_to_rustls o.fuel fb o.net o.rlens o.processOk finLen
            { st.rt with bytes_in_rustls := 0 } with
        | none =>
          rw [hcall] at h
          cases h
        | some r0 =>
          rw [hcall] at h
          dsimp only at h
          by_cases hsucc : r0.status = Status.success
          · rw [if_pos hsucc] at h
            cases hrec : refill_plain fb finLen os { st with rt := r0.st } with
            | none =>
              rw [hrec] at h
              cases h
            | some rr =>
              rw [hrec] at h
              simp only [Option.some.injEq] at h
              intro m hm
              rw [← h] at hm
              dsimp only at hm
              rw [List.mem_append] at hm
              cases hm with
              | inl hm1 =>
                cases read_tls_pull_shape hcall with
                | inl ho =>
                  rw [ho] at hm1
                  simp at hm1
                | inr ho =>
                  rw [ho] at hm1
                  simp at hm1
                  exact hm1
              | inr hm2 => exact ih hrec m hm2
          · rw [if_neg hsucc] at h
            simp only [Option.some.injEq] at h
            intro m hm
            rw [← h] at hm
            dsimp only at hm
            cases read_tls_pull_shape hcall with
            | inl ho =>
              rw [ho] at hm
              simp at hm
            | inr ho =>
              rw [ho] at hm
              simp at hm
              exact hm
      · rw [if_neg hr0] at h
        exact ih h
    · rw [if_neg hp] at h
      simp only [Option.some.injEq] at h
      intro m hm
      rw [← h] at hm
      simp at hm

/-- C5 counterexample: a blocking read request whose first pull yields one
encrypted byte (a partial record, so the session produces no plaintext);
the next refill iteration pulls from the network again and that second
pull is again blocking, because each read_tls_to_rustls call restarts from
the stored caller preference fin_block (src/tls_filter.c line 52) — the
downgrade at line 85 is local to one call.  The claim that every pull after
the first is forced non-blocking is therefore false. -/
theorem c5_second_pull_blocks_again :
    refill_plain BlockMode.blocking 64
      [⟨0, Except.ok [⟨[7], false⟩], [1], true, 5⟩,
       ⟨0, Except.ok [⟨[8], false⟩], [1], true, 5⟩,
       ⟨1, Except.ok [], [], true, 5⟩]
      ⟨⟨[], none, 0, [], []⟩, []⟩
      = some ⟨⟨⟨[], none, 1, [7, 8], [7, 8]⟩, [0]⟩, Status.success,
          [BlockMode.blocking, BlockMode.blocking]⟩
    ∧ [BlockMode.blocking, BlockMode.blocking].drop 1 ≠ [BlockMode.nonblocking] :=
  ⟨rfl, by decide⟩

/-- C5 amended: the blocking downgrade is per helper call, not per filter
invocation: every ap_get_brigade network pull of the refill loop uses the
caller preference, while within a single read loop run the bucket reads
form a block of the starting mode followed only by non-blocking reads. -/
theorem c5_amended_blocking_discipline :
    (∀ (fb : BlockMode) (finLen : Nat) (os : List RefillOracle)
        (st : FinState) (r : RefillRes),
      refill_plain fb finLen os st = some r → ∀ m ∈ r.pulls, m = fb)
    ∧ (∀ (fuel finLen : Nat) (blk : BlockMode) (rlens : List Nat)
        (passed : Nat) (st : RtState) (r : RtLoopRes),
      rtLoop fuel finLen blk rlens passed st = some r →
      ∃ a b, r.reads = List.replicate a blk ++ List.replicate b BlockMode.nonblocking) :=
  ⟨fun _ _ _ _ _ h => refill_pulls_eq h,
   fun _ _ _ _ _ _ _ h => rtLoop_reads_shape h⟩

/-- C5 amended witness at a concrete input: the three-iteration refill run
of the counterexample has all pulls blocking (the caller preference), and a
one-bucket read loop run has the claimed reads shape. -/
theorem c5_amended_witness :
    BlockMode.blocking = BlockMode.blocking
    ∧ ∃ a b, [BlockMode.blocking] = List.replicate a BlockMode.blocking
        ++ List.replicate b BlockMode.nonblocking :=
  ⟨c5_amended_blocking_discipline.1 BlockMode.blocking 64
      [⟨0, Except.ok [⟨[7], false⟩], [1], true, 5⟩,
       ⟨0, Except.ok [⟨[8], false⟩], [1], true, 5⟩,
       ⟨1, Except.ok [], [], true, 5⟩]
      ⟨⟨[], none, 0, [], []⟩, []⟩
      ⟨⟨⟨[], none, 1, [7, 8], [7, 8]⟩, [0]⟩, Status.success,
          [BlockMode.blocking, BlockMode.blocking]⟩
      rfl BlockMode.blocking (by simp),
   c5_amended_blocking_discipline.2 5 10 BlockMode.blocking [1] 0
      ⟨[⟨[5], false⟩], none, 0, [], []⟩
      ⟨⟨[], none, 1, [5], []⟩, 1, Status.success, [BlockMode.blocking]⟩ rfl⟩

/-- C6: the claimed EOF semantics are what the cleanup mapping of
read_tls_to_rustls (src/tls_filter.c lines 123-129) implements, and they
hold while the sniff copy brigade is attached — but before that mapping
can run, the EOS branch executes apr_brigade_cleanup(fctx->fin_tls_buffer_bb)
unconditionally (line 70), and that field is NULL in every phase outside
sniffing (set NULL at tls_filter_conn_init line 787 and again at the
rebind, line 291).  Contrast the guarded use of the same field at line 91:
on the steady-state read path an EOS bucket dereferences a NULL brigade
and the process crashes instead of returning.  The first conjunct
evaluates the model at such a steady-state input (one data byte, then EOS,
in one brigade) and yields the crash marker, which is neither the claimed
success nor EOF; the last two conjuncts show the claimed semantics on the
same traffic with the sniff copy attached: success when bytes were passed
to the engine, EOF propagated when none were. -/
theorem c6_eos_null_brigade_cleanup_crash :
    read_tls_to_rustls 5 BlockMode.blocking
        (Except.ok [⟨[5], false⟩, ⟨[], true⟩]) [1] true 10 ⟨[], none, 0, [], []⟩
      = some ⟨⟨[⟨[], true⟩], none, 1, [5], [5]⟩, Status.segfault, Status.segfault,
          1, some BlockMode.blocking, [BlockMode.blocking]⟩
    ∧ Status.segfault ≠ Status.success
    ∧ Status.segfault ≠ Status.eof
    ∧ read_tls_to_rustls 5 BlockMode.blocking
        (Except.ok [⟨[5], false⟩, ⟨[], true⟩]) [1] true 10 ⟨[], some [], 0, [], []⟩
      = some ⟨⟨[⟨[], true⟩], some [], 1, [5], [5]⟩, Status.success, Status.eof,
          1, some BlockMode.blocking, [BlockMode.blocking]⟩
    ∧ read_tls_to_rustls 5 BlockMode.blocking
        (Except.ok [⟨[], true⟩]) [] true 10 ⟨[], some [], 0, [], []⟩
      = some ⟨⟨[⟨[], true⟩], some [], 0, [], []⟩, Status.eof, Status.eof,
          0, some BlockMode.blocking, []⟩ :=
  ⟨rfl, by decide, by decide, rfl, rfl⟩

/-- C7 counterexample: on a DONE connection (which the code only ever
reaches through filter_abort, so the connection is also flagged aborted),
the outbound filter does not pass its data through unmodified to the next
filter: the aborted check at src/tls_filter.c lines 665-670 discards the
brigade and returns ECONNABORTED, so nothing reaches the next filter. -/
theorem c7_output_discards_on_done :
    filter_conn_output_entry ⟨ConnState.done, true, true, 3, 2, 0⟩
        [OutBucket.data [1] false]
      = some (⟨ConnState.done, true, true, 3, 2, 0⟩, [], [], Status.econnaborted)
    ∧ ([] : List OutBucket) ≠ [OutBucket.data [1] false] :=
  ⟨rfl, by decide⟩

/-- C7 amended: once DONE (and hence aborted, as filter_abort establishes
both together), calls are idempotent: a repeated abort performs no
close-notify and no flush and returns ECONNABORTED; a read call returns
ECONNABORTED with the connection, its ghost engine counters and the
buffered state untouched and nothing delivered; a write call discards its
input, passes nothing to the next filter, and returns ECONNABORTED. -/
theorem c7_amended_done_idempotent (c : Conn) (fin : FinState)
    (mode : InputMode) (block : BlockMode) (readbytes finLen : Nat)
    (o : InOracle) (bb : List OutBucket)
    (hdone : c.state = ConnState.done) (hab : c.aborted = true) :
    filter_abort c = (c, Status.econnaborted)
    ∧ filter_conn_input c fin mode block readbytes finLen o
        = some ⟨c, fin, Status.econnaborted, [], false⟩
    ∧ filter_conn_output_entry c bb = some (c, [], [], Status.econnaborted) := by
  have habort : filter_abort c = (c, Status.econnaborted) := by
    unfold filter_abort
    rw [if_neg (show ¬ c.state ≠ ConnState.done from fun hne => hne hdone)]
  refine ⟨habort, ?_, ?_⟩
  · unfold filter_conn_input
    rw [if_pos hab, habort]
  · unfold filter_conn_output_entry
    rw [if_pos hab]

/-- C7 amended witness at a concrete input: a DONE, aborted connection with
one metadata bucket pending on the write side. -/
theorem c7_amended_witness :
    filter_abort ⟨ConnState.done, true, true, 3, 2, 0⟩
        = (⟨ConnState.done, true, true, 3, 2, 0⟩, Status.econnaborted)
    ∧ filter_conn_input ⟨ConnState.done, true, true, 3, 2, 0⟩
        ⟨⟨[], none, 0, [], []⟩, []⟩ InputMode.readbytes BlockMode.blocking 1 8
        ⟨Status.success, Status.success, []⟩
        = some ⟨⟨ConnState.done, true, true, 3, 2, 0⟩, ⟨⟨[], none, 0, [], []⟩, []⟩,
            Status.econnaborted, [], false⟩
    ∧ filter_conn_output_entry ⟨ConnState.done, true, true, 3, 2, 0⟩
        [OutBucket.meta true]
        = some (⟨ConnState.done, true, true, 3, 2, 0⟩, [], [], Status.econnaborted) :=
  c7_amended_done_idempotent ⟨ConnState.done, true, true, 3, 2, 0⟩
    ⟨⟨[], none, 0, [], []⟩, []⟩ InputMode.readbytes BlockMode.blocking 1 8
    ⟨Status.success, Status.success, []⟩ [OutBucket.meta true] rfl rfl

/-- Helper: when decrypted data is already buffered, the refill loop does
not run and succeeds immediately with no network pull. -/
theorem refill_nonempty {fb : BlockMode} {finLen : Nat} {os : List RefillOracle}
    {st : FinState} (h : st.plain_bb ≠ []) :
    refill_plain fb finLen os st = some ⟨st, Status.success, []⟩ := by
  have hne : st.plain_bb.isEmpty = false := by
    cases hp : st.plain_bb with
    | nil => exact absurd hp h
    | cons a l => rfl
  cases os with
  | nil =>
    rw [refill_plain]
    rw [if_neg (by simp [hne])]
  | cons o os =>
    rw [refill_plain]
    rw [if_neg (by simp [hne])]

/-- C9: an inbound read call in traffic state with an unsupported mode
(AP_MODE_EATCRLF, the only ap_input_mode_t outside the handled set) returns
the local APR_ENOTIMPL error, delivers no plaintext to the caller, leaves
the buffered plaintext untouched, and does not abort: the connection with
its state and ghost engine counters is returned unchanged, so no
close-notify is sent and no transition to DONE happens. -/
theorem c9_unsupported_mode_enotimpl (c : Conn) (fin : FinState)
    (block : BlockMode) (readbytes finLen : Nat) (o : InOracle)
    (hab : c.aborted = false) (hsess : c.has_session = true)
    (hst : c.state = ConnState.traffic) (hpl : fin.plain_bb ≠ []) :
    filter_conn_input c fin InputMode.eatcrlf block readbytes finLen o
      = some ⟨c, fin, Status.enotimpl, [], false⟩ := by
  obtain ⟨cs, cab, chs, cn, cf, cw⟩ := c
  have hab1 : cab = false := hab
  have hsess1 : chs = true := hsess
  have hst1 : cs = ConnState.traffic := hst
  subst hab1
  subst hsess1
  subst hst1
  simp [filter_conn_input, refill_nonempty hpl]

/-- C9 witness at a concrete input: a traffic-state connection with one
buffered plaintext byte, called with the unsupported EATCRLF mode. -/
theorem c9_witness :
    filter_conn_input ⟨ConnState.traffic, false, true, 0, 0, 0⟩
        ⟨⟨[], none, 0, [], []⟩, [1]⟩ InputMode.eatcrlf BlockMode.blocking 3 8
        ⟨Status.success, Status.success, []⟩
      = some ⟨⟨ConnState.traffic, false, true, 0, 0, 0⟩, ⟨⟨[], none, 0, [], []⟩, [1]⟩,
          Status.enotimpl, [], false⟩ :=
  c9_unsupported_mode_enotimpl ⟨ConnState.traffic, false, true, 0, 0, 0⟩
    ⟨⟨[], none, 0, [], []⟩, [1]⟩ BlockMode.blocking 3 8
    ⟨Status.success, Status.success, []⟩ rfl rfl rfl (by decide)

end ModTls
